import Mathlib

/-!
Shallow embedding of the go-yeelight client core (yeelight.go, method.go):
the command transport `send`, the notification listener `Listen`, the SSDP
discovery `Discover` with its `parseAddr` helper, and the typed operation
`IsPowerOn`.  Byte strings on the wire are modelled as `List Char` (the
payloads are ASCII), Go's fallible network operations are modelled by an
explicit record of phase outcomes, and machine integers by `Int`/`Nat`.
-/

namespace Yeelight

/-- Models Go `type Method string` (method.go). -/
abbrev Method := List Char

/-- Method constant `set_ct_abx` (method.go). -/
def SetColorTemperatureABX : Method := "set_ct_abx".data

/-- Method constant `set_rgb` (method.go). -/
def SetRGB : Method := "set_rgb".data

/-- Method constant `set_hsv` (method.go). -/
def SetHSV : Method := "set_hsv".data

/-- Method constant `set_bright` (method.go). -/
def SetBrightness : Method := "set_bright".data

/-- Method constant `set_power` (method.go). -/
def SetPower : Method := "set_power".data

/-- Method constant `toggle` (method.go). -/
def Toggle : Method := "toggle".data

/-- Method constant `get_prop` (method.go). -/
def GetProp : Method := "get_prop".data

/-- Method constant `props` (method.go). -/
def Props : Method := "props".data

/-- Method constant `adjust_bright` (method.go). -/
def AdjustBrightness : Method := "adjust_bright".data

/-- Method constant `adjust_ct` (method.go). -/
def AdjustColorTemperature : Method := "adjust_ct".data

/-- The CRLF terminator constant `crlf = "\r\n"` (yeelight.go line 26). -/
def crlf : List Char := ['\r', '\n']

/-- Models the Go `interface{}` values the library sends and receives as
JSON: the typed layer only ever passes strings and integers, and `get_prop`
results are strings, so the JSON scalars suffice. -/
inductive JValue where
  | null
  | bool (b : Bool)
  | num (n : Int)
  | str (s : List Char)
deriving DecidableEq, Repr

/-- Models the Go struct `command` (yeelight.go lines 78-85): the request
body `send` serialises, with JSON keys `id`, `method`, `params`. -/
structure command where
  ID : Int
  Method : Method
  Params : List JValue
deriving DecidableEq, Repr

/-- Models the anonymous error struct inside `Response`
(yeelight.go lines 97-100). -/
structure ResponseError where
  Code : Int
  Message : List Char
deriving DecidableEq, Repr

/-- Models the Go struct `Response` (yeelight.go lines 94-101). -/
structure Response where
  ID : Int
  Result : List JValue
  Error : Option ResponseError
deriving DecidableEq, Repr

/-- Models the Go struct `Notification` (yeelight.go lines 88-91);
the params map is a list of key/value pairs. -/
structure Notification where
  Method : Method
  Params : List (List Char × List Char)
deriving DecidableEq, Repr

/-! ### JSON encoding (Go `encoding/json` marshalling of `command`) -/

/-- The character `{` (written via its code point). -/
def lbrace : Char := Char.ofNat 123

/-- The character `}` (written via its code point). -/
def rbrace : Char := Char.ofNat 125

/-- Decimal digit character for `n % 10`, as produced by Go `strconv`. -/
def digitChar (n : Nat) : Char :=
  match n % 10 with
  | 0 => '0'
  | 1 => '1'
  | 2 => '2'
  | 3 => '3'
  | 4 => '4'
  | 5 => '5'
  | 6 => '6'
  | 7 => '7'
  | 8 => '8'
  | _ => '9'

/-- Lowercase hex digit character for `n % 16`, as produced by Go's JSON
encoder in `\u00XX` escapes. -/
def hexChar (n : Nat) : Char :=
  match n % 16 with
  | 0 => '0'
  | 1 => '1'
  | 2 => '2'
  | 3 => '3'
  | 4 => '4'
  | 5 => '5'
  | 6 => '6'
  | 7 => '7'
  | 8 => '8'
  | 9 => '9'
  | 10 => 'a'
  | 11 => 'b'
  | 12 => 'c'
  | 13 => 'd'
  | 14 => 'e'
  | _ => 'f'

/-- Fuel-driven most-significant-first decimal digits accumulator
(the fuel `n + 1` always suffices since `n` shrinks by division by 10). -/
def natDigitsAux : Nat → Nat → List Char → List Char
  | 0, _, acc => acc
  | fuel + 1, n, acc =>
    if n / 10 = 0 then digitChar (n % 10) :: acc
    else natDigitsAux fuel (n / 10) (digitChar (n % 10) :: acc)

/-- Decimal representation of a natural number, matching Go `strconv`. -/
def natDigits (n : Nat) : List Char := natDigitsAux (n + 1) n []

/-- Decimal representation of an integer, matching Go's JSON encoding of
`int` values. -/
def intToChars : Int → List Char
  | Int.ofNat n => natDigits n
  | Int.negSucc n => '-' :: natDigits (n + 1)

/-- Go `encoding/json` escaping of one character inside a JSON string
(default HTML-escaping encoder, as used by `json.NewEncoder`): quotes,
backslashes, newline/carriage-return/tab, the HTML-significant characters,
other control characters as `\u00XX`, and U+2028/U+2029. -/
def escChar (c : Char) : List Char :=
  if c = '"' then ['\\', '"']
  else if c = '\\' then ['\\', '\\']
  else if c = '\n' then ['\\', 'n']
  else if c = '\r' then ['\\', 'r']
  else if c = '\t' then ['\\', 't']
  else if c = '<' then "\\u003c".data
  else if c = '>' then "\\u003e".data
  else if c = '&' then "\\u0026".data
  else if c.toNat < 32 then ['\\', 'u', '0', '0', hexChar (c.toNat / 16), hexChar (c.toNat % 16)]
  else if c.toNat = 8232 then "\\u2028".data
  else if c.toNat = 8233 then "\\u2029".data
  else [c]

/-- Escape every character of a JSON string body. -/
def escapeChars : List Char → List Char
  | [] => []
  | c :: rest => escChar c ++ escapeChars rest

/-- A JSON string literal: quote, escaped body, quote. -/
def encodeJString (s : List Char) : List Char := '"' :: escapeChars s ++ ['"']

/-- JSON encoding of one scalar value. -/
def encodeJValue : JValue → List Char
  | JValue.null => "null".data
  | JValue.bool true => "true".data
  | JValue.bool false => "false".data
  | JValue.num n => intToChars n
  | JValue.str s => encodeJString s

/-- Comma-joined list, as inside a JSON array. -/
def commaJoin : List (List Char) → List Char
  | [] => []
  | [x] => x
  | x :: xs => x ++ ',' :: commaJoin xs

/-- JSON encoding of the `params` array. -/
def encodeParams (ps : List JValue) : List Char :=
  '[' :: commaJoin (ps.map encodeJValue) ++ [']']

/-- Go `json.Marshal` of a `command` value: one JSON object with the
tagged fields in declaration order `id`, `method`, `params`, and no
inserted whitespace. -/
def encodeCommand (cmd : command) : List Char :=
  lbrace :: "\"id\":".data ++ intToChars cmd.ID
    ++ ",\"method\":".data ++ encodeJString cmd.Method
    ++ ",\"params\":".data ++ encodeParams cmd.Params
    ++ [rbrace]

/-- Go `json.Encoder.Encode` writes the JSON encoding of its argument
followed by a newline character (yeelight.go line 192 uses
`json.NewEncoder(conn).Encode(cmd)`). -/
def encoderWrite (cmd : command) : List Char := encodeCommand cmd ++ ['\n']

/-! ### The command transport `send` (yeelight.go lines 172-211) -/

/-- Outcome of the single `json.NewDecoder(conn).Decode(&rs)` read in
`send` (yeelight.go line 202): the read deadline expired before a full
JSON value arrived, the bytes did not decode as JSON, or a `Response`
was decoded. -/
inductive ReadOutcome where
  | timedOut
  | malformed
  | reply (rs : Response)
deriving DecidableEq, Repr

/-- Environment of one `send` call: whether each fallible network phase
succeeds, in the order the code performs them (`net.Dial`,
`SetReadDeadline`, the encoder write, the `fmt.Fprint(conn, crlf)`
trailer write), and the outcome of the response read. -/
structure SendNet where
  dialOk : Bool
  deadlineOk : Bool
  writeOk : Bool
  trailerOk : Bool
  read : ReadOutcome
deriving DecidableEq, Repr

/-- The error values `send` can return, one constructor per `return nil,
err` site in yeelight.go lines 182-208.  `deviceRejected` carries the
device's code and message, which the Go code interpolates into the
returned error via `%v` of `rs.Error` (line 207). -/
inductive SendError where
  | dialFailed
  | deadlineFailed
  | encodeFailed
  | trailerFailed
  | parseFailed
  | deviceRejected (Code : Int) (Message : List Char)
deriving DecidableEq, Repr

instance {α β : Type} [DecidableEq α] [DecidableEq β] : DecidableEq (Except α β) := fun
  | Except.error a, Except.error b =>
    if h : a = b then isTrue (by rw [h])
    else isFalse (by intro hh; cases hh; exact h rfl)
  | Except.error _, Except.ok _ => isFalse (by intro h; cases h)
  | Except.ok _, Except.error _ => isFalse (by intro h; cases h)
  | Except.ok a, Except.ok b =>
    if h : a = b then isTrue (by rw [h])
    else isFalse (by intro hh; cases hh; exact h rfl)

/-- Observable trace of one `send` call: its return value, the bytes it
wrote to the connection, and whether the per-command TCP connection was
opened and closed.  The `defer conn.Close()` at line 186 closes the
connection on every path after a successful dial. -/
structure SendTrace where
  result : Except SendError Response
  bytesWritten : List Char
  connOpened : Bool
  connClosed : Bool
deriving DecidableEq, Repr

/-- Models `func (y *yeelight) send(method Method, args ...interface{})`
(yeelight.go lines 172-211).  `cmdId` stands for the value of
`y.rnd.Intn(100)`; mutual exclusion and the random source are outside
the single-call model.  Phases in source order: dial, read deadline,
`json.NewEncoder(conn).Encode(cmd)` (which writes the JSON object plus a
newline), `fmt.Fprint(conn, crlf)`, decode, device-error check. -/
def send (cmdId : Int) (method : Method) (args : List JValue) (net : SendNet) : SendTrace :=
  let cmd : command := { ID := cmdId, Method := method, Params := args }
  if net.dialOk = false then
    { result := Except.error SendError.dialFailed, bytesWritten := [],
      connOpened := false, connClosed := false }
  else if net.deadlineOk = false then
    { result := Except.error SendError.deadlineFailed, bytesWritten := [],
      connOpened := true, connClosed := true }
  else if net.writeOk = false then
    { result := Except.error SendError.encodeFailed, bytesWritten := [],
      connOpened := true, connClosed := true }
  else if net.trailerOk = false then
    { result := Except.error SendError.trailerFailed, bytesWritten := encoderWrite cmd,
      connOpened := true, connClosed := true }
  else
    let written := encoderWrite cmd ++ crlf
    match net.read with
    | ReadOutcome.timedOut =>
      { result := Except.error SendError.parseFailed, bytesWritten := written,
        connOpened := true, connClosed := true }
    | ReadOutcome.malformed =>
      { result := Except.error SendError.parseFailed, bytesWritten := written,
        connOpened := true, connClosed := true }
    | ReadOutcome.reply rs =>
      match rs.Error with
      | some e =>
        { result := Except.error (SendError.deviceRejected e.Code e.Message),
          bytesWritten := written, connOpened := true, connClosed := true }
      | none =>
        { result := Except.ok rs, bytesWritten := written,
          connOpened := true, connClosed := true }

/-- All four fallible phases before the response read succeed. -/
def sendPhasesOk (net : SendNet) : Bool :=
  net.dialOk && net.deadlineOk && net.writeOk && net.trailerOk

/-- Connect timeout of `send`: yeelight.go line 182 dials with plain
`net.Dial("tcp", y.address)`, which sets no timeout or deadline, so
there is no code-imposed bound (`none`). -/
def sendDialTimeoutSeconds : Option Nat := none

/-- Read deadline of `send`: yeelight.go line 188 sets
`conn.SetReadDeadline(time.Now().Add(time.Second * 2))`. -/
def sendReadDeadlineSeconds : Option Nat := some 2

/-- Connect timeout of `Listen`: yeelight.go line 215 dials with
`net.DialTimeout("tcp", y.address, time.Second*3)`. -/
def listenDialTimeoutSeconds : Option Nat := some 3

/-- Read deadline of `Discover`: yeelight.go line 125 sets
`socket.SetReadDeadline(time.Now().Add(time.Second * 3))`. -/
def discoverReadDeadlineSeconds : Option Nat := some 3

/-! ### The notification listener `Listen` (yeelight.go lines 213-239) -/

/-- One iteration of the listener goroutine's `for`/`select` loop
(yeelight.go lines 224-235): either `ctx.Done()` is ready when the
`select` runs, or the iteration falls to `default` and the JSON decode
of one `Notification` succeeds or fails. -/
inductive ListenEvent where
  | cancelled
  | decoded (n : Notification)
  | decodeFailed
deriving DecidableEq, Repr

/-- Observable state of the listener goroutine after consuming a finite
prefix of loop iterations: the notifications sent on the channel (most
recent first), whether the loop has returned, and whether the deferred
`c.Close()` and `close(notificationsCh)` have run. -/
structure ListenState where
  emitted : List Notification
  exited : Bool
  connClosed : Bool
  chClosed : Bool
deriving DecidableEq, Repr

/-- Models the listener loop of `Listen` over a finite trace of iteration
events.  On `ctx.Done()` the goroutine returns and its two `defer`s run
(`close(notificationsCh)` and `c.Close()`, lines 221-222); on a decode
error the iteration does nothing (`if err == nil` guards the emission,
line 231) and the loop continues; on success the notification is sent.
An unconsumed trace tail after a `cancelled` event never runs. -/
def listenLoop : List ListenEvent → ListenState
  | [] => { emitted := [], exited := false, connClosed := false, chClosed := false }
  | ListenEvent.cancelled :: _ =>
    { emitted := [], exited := true, connClosed := true, chClosed := true }
  | ListenEvent.decoded n :: rest =>
    let s := listenLoop rest
    { s with emitted := n :: s.emitted }
  | ListenEvent.decodeFailed :: rest => listenLoop rest

/-- A connection that is closed or broken from the start: every decode
attempt fails (in Go, `json.Decoder.Decode` keeps returning `io.EOF` or
a network error once the TCP connection is gone), for `n` iterations. -/
def brokenConnTrace (n : Nat) : List ListenEvent :=
  List.replicate n ListenEvent.decodeFailed

/-- The claim C6 as stated, on the broken-connection side: reading from a
closed/broken connection, the listener loop eventually exits.  (Its
cancellation side is settled separately by the amended theorem.) -/
def listenExitsOnBrokenConn : Prop :=
  ∃ n, (listenLoop (brokenConnTrace n)).exited = true

/-! ### Discovery (yeelight.go lines 109-156) and `New` (lines 159-169) -/

/-- Splits a byte string into its CRLF-terminated lines plus the leftover
bytes after the last CRLF; `acc` holds the current line reversed. -/
def toLinesAux (acc : List Char) : List Char → List (List Char) × List Char
  | [] => ([], acc.reverse)
  | '\r' :: '\n' :: rest =>
    let p := toLinesAux [] rest
    (acc.reverse :: p.1, p.2)
  | c :: rest => toLinesAux (c :: acc) rest

/-- CRLF-terminated lines of a message and the unterminated leftover. -/
def toLines (msg : List Char) : List (List Char) × List Char := toLinesAux [] msg

/-- Splits a byte string at the first occurrence of `sep`, like Go
`strings.Cut`; `none` when `sep` does not occur. -/
def cutOn (sep : Char) : List Char → Option (List Char × List Char)
  | [] => none
  | c :: rest =>
    if c = sep then some ([], rest)
    else (cutOn sep rest).map (fun p => (c :: p.1, p.2))

/-- Go `strings.TrimLeft(s, " ")`: drop leading space characters. -/
def trimLeftSpaces : List Char → List Char
  | ' ' :: rest => trimLeftSpaces rest
  | l => l

/-- `net/textproto` trimming of a header value: drop leading spaces and
tabs. -/
def trimLeftWS : List Char → List Char
  | ' ' :: rest => trimLeftWS rest
  | '\t' :: rest => trimLeftWS rest
  | l => l

/-- A nonempty all-digit byte string. -/
def isDigits (l : List Char) : Bool := !l.isEmpty && l.all (fun c => c.isDigit)

/-- Models `http.ParseHTTPVersion`: the protocol must read
`HTTP/<major>.<minor>` with numeric version parts. -/
def validHTTPVersion (proto : List Char) : Bool :=
  if "HTTP/".data.isPrefixOf proto then
    match cutOn '.' (proto.drop 5) with
    | some p => isDigits p.1 && isDigits p.2
    | none => false
  else false

/-- Models the status-line handling of `http.ReadResponse`: the line must
cut at a space into a valid HTTP version and a status whose first token
is a three-digit numeric code. -/
def validStatusLine (l : List Char) : Bool :=
  match cutOn ' ' l with
  | none => false
  | some pr =>
    let status := trimLeftSpaces pr.2
    let statusCode :=
      match cutOn ' ' status with
      | some sc => sc.1
      | none => status
    validHTTPVersion pr.1 && statusCode.length == 3 && isDigits statusCode

/-- The header lines strictly before the first blank line; `none` when no
blank line terminates the header section (in Go, `ReadMIMEHeader` hits
EOF and `http.ReadResponse` returns the error). -/
def headerSection : List (List Char) → Option (List (List Char))
  | [] => none
  | [] :: _ => some []
  | l :: rest => (headerSection rest).map (fun hs => l :: hs)

/-- Parses one `Key: value` header line as `net/textproto` does: cut at
the first colon, reject an empty key or a key containing a space, trim
the value's leading whitespace. -/
def parseHeaderLine (l : List Char) : Option (List Char × List Char) :=
  match cutOn ':' l with
  | none => none
  | some kv =>
    if kv.1.isEmpty || kv.1.contains ' ' then none
    else some (kv.1, trimLeftWS kv.2)

/-- Parses every header line, failing if any line is malformed. -/
def parseHeaderLines : List (List Char) → Option (List (List Char × List Char))
  | [] => some []
  | l :: rest =>
    match parseHeaderLine l with
    | none => none
    | some kv => (parseHeaderLines rest).map (fun hs => kv :: hs)

/-- Models `http.ReadResponse` restricted to what `parseAddr` consumes
(spec: an HTTP-response-shaped payload, status line plus headers, no
body): the first CRLF line must be a valid status line, and the lines up
to the first blank line must all parse as headers.  Line termination is
modelled as CRLF, the terminator the discovery payload uses. -/
def ReadResponse (msg : List Char) : Option (List (List Char × List Char)) :=
  match (toLines msg).1 with
  | [] => none
  | statusLine :: rest =>
    if validStatusLine statusLine then
      match headerSection rest with
      | none => none
      | some hls => parseHeaderLines hls
    else none

/-- Case-insensitive header-name comparison: the observable effect of
`net/textproto`'s canonical-key normalisation on store and lookup. -/
def keyEq (a b : List Char) : Bool := a.map Char.toLower == b.map Char.toLower

/-- Models `Response.Header.Get(key)`: the value of the first header whose
name matches case-insensitively, or the empty string when absent. -/
def headerGet (hs : List (List Char × List Char)) (key : List Char) : List Char :=
  match hs.find? (fun kv => keyEq kv.1 key) with
  | some kv => kv.2
  | none => []

/-- Go `strings.TrimPrefix`: remove `pre` when it is a prefix, else return
the string unchanged. -/
def TrimPrefix (s pre : List Char) : List Char :=
  if pre.isPrefixOf s then s.drop pre.length else s

/-- The scheme prefix `parseAddr` strips (yeelight.go line 155). -/
def yeelightScheme : List Char := "yeelight://".data

/-- The header name `parseAddr` reads (yeelight.go line 155). -/
def locationKey : List Char := "LOCATION".data

/-- The first statement of `parseAddr` (yeelight.go lines 146-148): when
the message ends in CRLF, another CRLF is appended before parsing. -/
def padCRLF (msg : List Char) : List Char :=
  if crlf.isSuffixOf msg then msg ++ crlf else msg

/-- Models `parseAddr` (yeelight.go lines 145-156): pad, parse as an HTTP
response, return the empty string on a parse error, else strip the
scheme prefix off the `LOCATION` header value. -/
def parseAddr (msg : List Char) : List Char :=
  match ReadResponse (padCRLF msg) with
  | none => []
  | some hdrs => TrimPrefix (headerGet hdrs locationKey) yeelightScheme

/-- Models `New` (yeelight.go lines 159-169) by its observable address
(`String()` returns `y.address`): the default port 55443 is appended
when the given address has no colon. -/
def New (address : List Char) : List Char :=
  if address.contains ':' then address else address ++ ":55443".data

/-- Environment of one `Discover` call: whether each fallible phase
succeeds in source order (`ResolveUDPAddr`, `ListenPacket`, `WriteToUDP`,
`SetReadDeadline`), the first UDP reply read before the deadline (`none`
when the read fails, i.e. the deadline elapsed with no reply), and
whether `pc.Close()` succeeds. -/
structure DiscoverNet where
  resolveOk : Bool
  listenOk : Bool
  writeOk : Bool
  deadlineOk : Bool
  reply : Option (List Char)
  closeOk : Bool
deriving DecidableEq, Repr

/-- The error values `Discover` can return, one constructor per `return
nil, err` site in yeelight.go lines 109-142; `noDeviceFound` is the
distinguished `ErrDiscoverNoDeviceFound` (line 22, returned at 132). -/
inductive DiscoverError where
  | resolveFailed
  | listenFailed
  | writeFailed
  | deadlineFailed
  | noDeviceFound
  | closeFailed
deriving DecidableEq, Repr

/-- Observable trace of one `Discover` call: its result (the address of
the returned `Yeelight` on success), and whether the UDP socket was
opened and whether `pc.Close()` was ever invoked.  The source has no
`defer pc.Close()`: `Close` is called only on the success path at
line 135. -/
structure DiscoverTrace where
  result : Except DiscoverError (List Char)
  socketOpened : Bool
  socketClosed : Bool
deriving DecidableEq, Repr

/-- Models `Discover` (yeelight.go lines 109-142), phase by phase in
source order. -/
def Discover (net : DiscoverNet) : DiscoverTrace :=
  if net.resolveOk = false then
    { result := Except.error DiscoverError.resolveFailed,
      socketOpened := false, socketClosed := false }
  else if net.listenOk = false then
    { result := Except.error DiscoverError.listenFailed,
      socketOpened := false, socketClosed := false }
  else if net.writeOk = false then
    { result := Except.error DiscoverError.writeFailed,
      socketOpened := true, socketClosed := false }
  else if net.deadlineOk = false then
    { result := Except.error DiscoverError.deadlineFailed,
      socketOpened := true, socketClosed := false }
  else
    match net.reply with
    | none =>
      { result := Except.error DiscoverError.noDeviceFound,
        socketOpened := true, socketClosed := false }
    | some rs =>
      if net.closeOk = false then
        { result := Except.error DiscoverError.closeFailed,
          socketOpened := true, socketClosed := true }
      else
        { result := Except.ok (New (parseAddr rs)),
          socketOpened := true, socketClosed := true }

/-- All fallible `Discover` phases before the UDP read succeed. -/
def discoverPhasesOk (net : DiscoverNet) : Bool :=
  net.resolveOk && net.listenOk && net.writeOk && net.deadlineOk && net.closeOk

/-! ### `IsPowerOn` (yeelight.go lines 282-289) -/

/-- Result of running a Go function that can also panic: `IsPowerOn`
indexes `resp.Result[0]` without a bounds check, which panics with an
index-out-of-range runtime error when the slice is empty. -/
inductive GoCall (α : Type) where
  | ok (val : α)
  | err (e : SendError)
  | panicked
deriving DecidableEq, Repr

/-- Models `IsPowerOn` (yeelight.go lines 282-289): call
`send(GetProp, "power")`, propagate its error, otherwise evaluate
`resp.Result[0] == "on"` where the unchecked index access is partial. -/
def IsPowerOn (cmdId : Int) (net : SendNet) : GoCall Bool :=
  match (send cmdId GetProp [JValue.str "power".data] net).result with
  | Except.error e => GoCall.err e
  | Except.ok resp =>
    match resp.Result.get? 0 with
    | none => GoCall.panicked
    | some v => GoCall.ok (decide (v = JValue.str "on".data))

/-! ### Claim statements and concrete runs -/

/-- The claim C3 as stated: with all write phases succeeding, the bytes
`send` writes are exactly the JSON object immediately followed by the
two-character CRLF terminator, with no byte in between. -/
def sendWiresJsonImmediatelyCRLF : Prop :=
  ∀ (cmdId : Int) (m : Method) (args : List JValue) (net : SendNet),
    sendPhasesOk net = true →
    (send cmdId m args net).bytesWritten
      = encodeCommand { ID := cmdId, Method := m, Params := args } ++ crlf

/-- The claim C4 as stated: both blocking phases of `send` carry a
code-imposed bound — a dial timeout and a read deadline. -/
def sendPhasesBounded : Prop :=
  sendDialTimeoutSeconds.isSome = true ∧ sendReadDeadlineSeconds.isSome = true

/-- The claim C5 as stated: a decoded Response whose echoed id differs
from the sent id makes `send` fail rather than succeed. -/
def sendChecksResponseId : Prop :=
  ∀ (cmdId : Int) (m : Method) (args : List JValue) (net : SendNet) (rs : Response),
    sendPhasesOk net = true → net.read = ReadOutcome.reply rs → rs.ID ≠ cmdId →
    ∃ e, (send cmdId m args net).result = Except.error e

/-- A peer whose Response carries a device error object. -/
def deviceErrorNet : SendNet :=
  { dialOk := true, deadlineOk := true, writeOk := true, trailerOk := true,
    read := ReadOutcome.reply
      { ID := 7, Result := [], Error := some { Code := -1, Message := "invalid command".data } } }

/-- A peer that echoes a successful Response with a result array. -/
def successNet : SendNet :=
  { dialOk := true, deadlineOk := true, writeOk := true, trailerOk := true,
    read := ReadOutcome.reply
      { ID := 3, Result := [JValue.str "on".data], Error := none } }

/-- A run in which every phase up to the response read succeeds and the
read deadline then expires. -/
def timeoutNet : SendNet :=
  { dialOk := true, deadlineOk := true, writeOk := true, trailerOk := true,
    read := ReadOutcome.timedOut }

/-- A peer that echoes a successful Response carrying an id different
from the one sent with the command. -/
def mismatchNet : SendNet :=
  { dialOk := true, deadlineOk := true, writeOk := true, trailerOk := true,
    read := ReadOutcome.reply
      { ID := 2, Result := [JValue.str "on".data], Error := none } }

/-- A peer whose successful Response carries an empty result array. -/
def emptyResultNet : SendNet :=
  { dialOk := true, deadlineOk := true, writeOk := true, trailerOk := true,
    read := ReadOutcome.reply { ID := 5, Result := [], Error := none } }

/-- A discovery reply as in the spec's example: status line plus a
`LOCATION` header, each line CRLF-terminated. -/
def sampleReply : List Char :=
  "HTTP/1.1 200 OK".data ++ crlf
    ++ "LOCATION: yeelight://192.168.1.50:55443".data ++ crlf

/-- The headers `ReadResponse` extracts from `sampleReply`. -/
def sampleHeaders : List (List Char × List Char) :=
  [("LOCATION".data, "yeelight://192.168.1.50:55443".data)]

/-- A discovery run that receives `sampleReply`. -/
def sampleDiscoverNet : DiscoverNet :=
  { resolveOk := true, listenOk := true, writeOk := true, deadlineOk := true,
    reply := some sampleReply, closeOk := true }

/-- A discovery run in which no UDP reply arrives before the deadline. -/
def silentDiscoverNet : DiscoverNet :=
  { resolveOk := true, listenOk := true, writeOk := true, deadlineOk := true,
    reply := none, closeOk := true }

/-! ### Helper lemmas about the encoder and `send` -/

theorem sendPhasesOk_split (net : SendNet) (hp : sendPhasesOk net = true) :
    net.dialOk = true ∧ net.deadlineOk = true ∧ net.writeOk = true ∧ net.trailerOk = true := by
  simp only [sendPhasesOk, Bool.and_eq_true] at hp
  exact ⟨hp.1.1.1, hp.1.1.2, hp.1.2, hp.2⟩

theorem digitChar_ne_newline (n : Nat) : digitChar n ≠ '\n' := by
  unfold digitChar
  split <;> decide

theorem hexChar_ne_newline (n : Nat) : hexChar n ≠ '\n' := by
  unfold hexChar
  split <;> decide

theorem natDigitsAux_not_newline (fuel : Nat) : ∀ (n : Nat) (acc : List Char),
    '\n' ∉ acc → '\n' ∉ natDigitsAux fuel n acc := by
  induction fuel with
  | zero => intro n acc hacc; simpa [natDigitsAux] using hacc
  | succ f ih =>
    intro n acc hacc
    simp only [natDigitsAux]
    split
    · intro hmem
      rcases List.mem_cons.mp hmem with h | h
      · exact digitChar_ne_newline _ h.symm
      · exact hacc h
    · refine ih _ _ ?_
      intro hmem
      rcases List.mem_cons.mp hmem with h | h
      · exact digitChar_ne_newline _ h.symm
      · exact hacc h

theorem natDigits_not_newline (n : Nat) : '\n' ∉ natDigits n :=
  natDigitsAux_not_newline _ _ _ (by simp)

theorem intToChars_not_newline (n : Int) : '\n' ∉ intToChars n := by
  cases n with
  | ofNat m => exact natDigits_not_newline m
  | negSucc m =>
    intro hmem
    rcases List.mem_cons.mp hmem with h | h
    · exact absurd h (by decide)
    · exact natDigits_not_newline _ h

set_option maxHeartbeats 2000000 in
theorem escChar_not_newline (c : Char) : '\n' ∉ escChar c := by
  unfold escChar
  split_ifs with h1 h2 h3 h4 h5 h6 h7 h8 h9 h10 h11
  · decide
  · decide
  · decide
  · decide
  · decide
  · decide
  · decide
  · decide
  · intro hmem
    rcases List.mem_cons.mp hmem with h | h
    · exact absurd h (by decide)
    rcases List.mem_cons.mp h with h | h
    · exact absurd h (by decide)
    rcases List.mem_cons.mp h with h | h
    · exact absurd h (by decide)
    rcases List.mem_cons.mp h with h | h
    · exact absurd h (by decide)
    rcases List.mem_cons.mp h with h | h
    · exact hexChar_ne_newline _ h.symm
    rcases List.mem_cons.mp h with h | h
    · exact hexChar_ne_newline _ h.symm
    · exact absurd h (by simp)
  · decide
  · decide
  · intro hmem
    exact h3 (List.mem_singleton.mp hmem).symm

theorem escapeChars_not_newline (s : List Char) : '\n' ∉ escapeChars s := by
  induction s with
  | nil => simp [escapeChars]
  | cons c rest ih =>
    simp only [escapeChars, List.mem_append]
    rintro (h | h)
    · exact escChar_not_newline c h
    · exact ih h

theorem encodeJString_not_newline (s : List Char) : '\n' ∉ encodeJString s := by
  intro hmem
  rcases List.mem_cons.mp hmem with h | h
  · exact absurd h (by decide)
  rcases List.mem_append.mp h with h | h
  · exact escapeChars_not_newline s h
  · exact absurd (List.mem_singleton.mp h) (by decide)

theorem encodeJValue_not_newline (v : JValue) : '\n' ∉ encodeJValue v := by
  cases v with
  | null => decide
  | bool b => cases b <;> decide
  | num n => exact intToChars_not_newline n
  | str s => exact encodeJString_not_newline s

theorem commaJoin_not_newline (ls : List (List Char))
    (h : ∀ l ∈ ls, '\n' ∉ l) : '\n' ∉ commaJoin ls := by
  induction ls with
  | nil => simp [commaJoin]
  | cons x xs ih =>
    cases xs with
    | nil => simpa [commaJoin] using h x (by simp)
    | cons y ys =>
      intro hmem
      rcases List.mem_append.mp hmem with hm | hm
      · exact h x (by simp) hm
      rcases List.mem_cons.mp hm with hm | hm
      · exact absurd hm (by decide)
      · exact ih (fun l hl => h l (List.mem_cons_of_mem _ hl)) hm

theorem encodeParams_not_newline (ps : List JValue) : '\n' ∉ encodeParams ps := by
  intro hmem
  rcases List.mem_cons.mp hmem with h | h
  · exact absurd h (by decide)
  rcases List.mem_append.mp h with h | h
  · refine commaJoin_not_newline _ ?_ h
    intro l hl
    rcases List.mem_map.mp hl with ⟨v, _, rfl⟩
    exact encodeJValue_not_newline v
  · exact absurd (List.mem_singleton.mp h) (by decide)

/-- The JSON object `send` writes sits on one line: the serialisation of
a command contains no newline character. -/
theorem encodeCommand_one_line (cmd : command) : '\n' ∉ encodeCommand cmd := by
  intro hmem
  rcases List.mem_cons.mp hmem with h | h
  · exact absurd h (by decide)
  rcases List.mem_append.mp h with h | h
  · rcases List.mem_append.mp h with h | h
    · rcases List.mem_append.mp h with h | h
      · rcases List.mem_append.mp h with h | h
        · rcases List.mem_append.mp h with h | h
          · rcases List.mem_append.mp h with h | h
            · exact absurd h (by decide)
            · exact intToChars_not_newline _ h
          · exact absurd h (by decide)
        · exact encodeJString_not_newline _ h
      · exact absurd h (by decide)
    · exact encodeParams_not_newline _ h
  · exact absurd (List.mem_singleton.mp h) (by decide)

/-- With the four fallible phases succeeding, the bytes written do not
depend on the read outcome: they are the encoder output plus CRLF. -/
theorem send_bytesWritten (cmdId : Int) (m : Method) (args : List JValue)
    (net : SendNet) (hp : sendPhasesOk net = true) :
    (send cmdId m args net).bytesWritten
      = encodeCommand { ID := cmdId, Method := m, Params := args } ++ '\n' :: crlf := by
  obtain ⟨h1, h2, h3, h4⟩ := sendPhasesOk_split net hp
  cases hread : net.read with
  | timedOut => simp [send, h1, h2, h3, h4, hread, encoderWrite]
  | malformed => simp [send, h1, h2, h3, h4, hread, encoderWrite]
  | reply rs =>
    cases he : rs.Error <;> simp [send, h1, h2, h3, h4, hread, he, encoderWrite]

/-- With all phases up to the read succeeding and the peer's Response
decoding with a null error, `send` returns that Response. -/
theorem send_result_ok (cmdId : Int) (m : Method) (args : List JValue)
    (net : SendNet) (rs : Response)
    (hp : sendPhasesOk net = true) (hr : net.read = ReadOutcome.reply rs)
    (he : rs.Error = none) :
    (send cmdId m args net).result = Except.ok rs := by
  obtain ⟨h1, h2, h3, h4⟩ := sendPhasesOk_split net hp
  simp [send, h1, h2, h3, h4, hr, he]

/-- The listener loop makes no observable progress on a connection whose
every decode fails: no exit, no close, no emission, for any number of
iterations. -/
theorem listenLoop_brokenConnTrace (n : Nat) :
    listenLoop (brokenConnTrace n)
      = { emitted := [], exited := false, connClosed := false, chClosed := false } := by
  induction n with
  | zero => rfl
  | succ k ih =>
    rw [brokenConnTrace, List.replicate_succ]
    exact ih

theorem isPrefixOf_append_self (p s : List Char) : p.isPrefixOf (p ++ s) = true := by
  rw [List.isPrefixOf_iff_prefix]
  exact List.prefix_append p s

theorem TrimPrefix_append (p s : List Char) : TrimPrefix (p ++ s) p = s := by
  unfold TrimPrefix
  rw [if_pos (isPrefixOf_append_self p s), List.drop_left]

/-! ### The claims -/

/-- C1: whenever the peer's decoded Response carries a non-null error
object with code `c` and message `m`, `send` returns the device-rejected
error carrying exactly that code and message, not the Response as a
success. -/
theorem send_rejects_device_error (cmdId : Int) (m : Method) (args : List JValue)
    (net : SendNet) (rs : Response) (e : ResponseError)
    (hp : sendPhasesOk net = true) (hr : net.read = ReadOutcome.reply rs)
    (he : rs.Error = some e) :
    (send cmdId m args net).result
      = Except.error (SendError.deviceRejected e.Code e.Message) := by
  obtain ⟨h1, h2, h3, h4⟩ := sendPhasesOk_split net hp
  simp [send, h1, h2, h3, h4, hr, he]

/-- Witness for C1 at a concrete run. -/
theorem send_rejects_device_error_witness :
    (send 7 SetPower [JValue.str "on".data] deviceErrorNet).result
      = Except.error (SendError.deviceRejected (-1) "invalid command".data) :=
  send_rejects_device_error 7 SetPower [JValue.str "on".data] deviceErrorNet
    { ID := 7, Result := [], Error := some { Code := -1, Message := "invalid command".data } }
    { Code := -1, Message := "invalid command".data } rfl rfl rfl

/-- C2: whenever the peer's reply decodes as a Response with a null error
and result array `r`, `send` returns that Response (hence `r` unmodified
and in order) with no error, and the bytes it wrote serialise exactly the
id, method and parameter values it was given. -/
theorem send_success_returns_result (cmdId : Int) (m : Method) (args : List JValue)
    (net : SendNet) (rs : Response)
    (hp : sendPhasesOk net = true) (hr : net.read = ReadOutcome.reply rs)
    (he : rs.Error = none) :
    (send cmdId m args net).result = Except.ok rs ∧
    (send cmdId m args net).bytesWritten
      = encodeCommand { ID := cmdId, Method := m, Params := args } ++ '\n' :: crlf :=
  ⟨send_result_ok cmdId m args net rs hp hr he, send_bytesWritten cmdId m args net hp⟩

/-- Witness for C2 at a concrete run. -/
theorem send_success_returns_result_witness :
    (send 3 GetProp [JValue.str "power".data] successNet).result
      = Except.ok { ID := 3, Result := [JValue.str "on".data], Error := none } :=
  (send_success_returns_result 3 GetProp [JValue.str "power".data] successNet
    { ID := 3, Result := [JValue.str "on".data], Error := none } rfl rfl rfl).1

/-- C3 counterexample: the bytes `send` writes are not the JSON object
immediately followed by CRLF — `json.Encoder.Encode` inserts a newline
byte between the object and the CRLF trailer. -/
theorem send_wire_counterexample : ¬ sendWiresJsonImmediatelyCRLF := by
  intro h
  exact absurd (h 1 SetPower [JValue.str "on".data] timeoutNet rfl) (by decide)

/-- C3 amended: the bytes `send` writes are the command serialised as a
single JSON object on one line (the object contains no newline), followed
by the newline emitted by `json.Encoder.Encode`, followed by CRLF. -/
theorem send_wire_json_newline_crlf (cmdId : Int) (m : Method) (args : List JValue)
    (net : SendNet) (hp : sendPhasesOk net = true) :
    (send cmdId m args net).bytesWritten
      = encodeCommand { ID := cmdId, Method := m, Params := args } ++ '\n' :: crlf ∧
    '\n' ∉ encodeCommand { ID := cmdId, Method := m, Params := args } :=
  ⟨send_bytesWritten cmdId m args net hp, encodeCommand_one_line _⟩

/-- Witness for the amended C3 at a concrete run. -/
theorem send_wire_json_newline_crlf_witness :
    (send 1 SetPower [JValue.str "on".data] timeoutNet).bytesWritten
      = encodeCommand { ID := 1, Method := SetPower, Params := [JValue.str "on".data] }
        ++ '\n' :: crlf :=
  (send_wire_json_newline_crlf 1 SetPower [JValue.str "on".data] timeoutNet rfl).1

/-- C4 counterexample: not both blocking phases of `send` are bounded —
the connection attempt uses `net.Dial` with no timeout or deadline. -/
theorem send_dial_unbounded : ¬ sendPhasesBounded := by
  intro h
  exact absurd h.1 (by decide)

/-- C4 amended: the response read of `send` is bounded by a 2-second read
deadline but the connection attempt carries no code-imposed bound, and a
read-deadline expiry surfaces through the same parse-failure error as a
malformed response rather than as a distinct timeout error. -/
theorem send_timeout_bounds_as_implemented :
    sendDialTimeoutSeconds = none ∧ sendReadDeadlineSeconds = some 2 ∧
    ∀ (cmdId : Int) (m : Method) (args : List JValue) (net : SendNet),
      sendPhasesOk net = true →
      (send cmdId m args { net with read := ReadOutcome.timedOut }).result
        = Except.error SendError.parseFailed ∧
      (send cmdId m args { net with read := ReadOutcome.malformed }).result
        = Except.error SendError.parseFailed := by
  refine ⟨rfl, rfl, ?_⟩
  intro cmdId m args net hp
  obtain ⟨h1, h2, h3, h4⟩ := sendPhasesOk_split net hp
  constructor <;> simp [send, h1, h2, h3, h4]

/-- Witness for the amended C4 at a concrete run. -/
theorem send_timeout_bounds_as_implemented_witness :
    (send 1 SetPower [JValue.str "on".data]
        { timeoutNet with read := ReadOutcome.timedOut }).result
      = Except.error SendError.parseFailed :=
  (send_timeout_bounds_as_implemented.2.2 1 SetPower [JValue.str "on".data] timeoutNet rfl).1

/-- C5 counterexample: `send` never compares the echoed Response id with
the sent id — a Response with a mismatched id and a null error is
returned as a success, not rejected. -/
theorem send_accepts_mismatched_id : ¬ sendChecksResponseId := by
  intro h
  obtain ⟨e, he⟩ := h 1 GetProp [JValue.str "power".data] mismatchNet
    { ID := 2, Result := [JValue.str "on".data], Error := none } rfl rfl (by decide)
  have hok : (send 1 GetProp [JValue.str "power".data] mismatchNet).result
      = Except.ok { ID := 2, Result := [JValue.str "on".data], Error := none } := rfl
  rw [hok] at he
  exact Except.noConfusion he

/-- C5 amended: `send` performs no id-correlation check: a decoded
Response with a null error is returned as a success even when its echoed
id differs from the identifier sent with the command. -/
theorem send_ignores_response_id (cmdId : Int) (m : Method) (args : List JValue)
    (net : SendNet) (rs : Response)
    (hp : sendPhasesOk net = true) (hr : net.read = ReadOutcome.reply rs)
    (he : rs.Error = none) (_hid : rs.ID ≠ cmdId) :
    (send cmdId m args net).result = Except.ok rs :=
  send_result_ok cmdId m args net rs hp hr he

/-- Witness for the amended C5 at a concrete run. -/
theorem send_ignores_response_id_witness :
    (send 1 GetProp [JValue.str "power".data] mismatchNet).result
      = Except.ok { ID := 2, Result := [JValue.str "on".data], Error := none } :=
  send_ignores_response_id 1 GetProp [JValue.str "power".data] mismatchNet
    { ID := 2, Result := [JValue.str "on".data], Error := none } rfl rfl rfl (by decide)

/-- C6 counterexample: the listener loop does not exit when the
underlying connection is closed or broken — with every decode failing and
no cancellation, it never exits (and never closes the stream), however
many iterations run. -/
theorem listen_never_exits_on_broken_conn : ¬ listenExitsOnBrokenConn := by
  rintro ⟨n, h⟩
  rw [listenLoop_brokenConnTrace] at h
  simp at h

/-- C6 amended: the listener loop exits exactly when the cancellation
signal fires, and it closes the connection and ends the emitted stream
exactly on exit; a closed or broken connection only produces skipped
decode-failure iterations and does not terminate the loop. -/
theorem listen_exits_only_on_cancellation (tr : List ListenEvent) :
    ((listenLoop tr).exited = true ↔ ListenEvent.cancelled ∈ tr) ∧
    (listenLoop tr).connClosed = (listenLoop tr).exited ∧
    (listenLoop tr).chClosed = (listenLoop tr).exited := by
  induction tr with
  | nil => simp [listenLoop]
  | cons e rest ih =>
    cases e with
    | cancelled => simp [listenLoop]
    | decoded n => simpa [listenLoop] using ih
    | decodeFailed => simpa [listenLoop] using ih

/-- C7: a discovery reply that parses as an HTTP response whose first
`LOCATION` header value is the scheme prefix followed by a host:port
address makes `Discover` return exactly that bare address; a reply with
no parseable `LOCATION` header makes `parseAddr` yield the empty address
rather than a distinguished error. -/
theorem discover_parses_location (net : DiscoverNet) (msg addr : List Char)
    (hdrs : List (List Char × List Char))
    (hph : discoverPhasesOk net = true)
    (hreply : net.reply = some msg)
    (hresp : ReadResponse (padCRLF msg) = some hdrs)
    (hloc : headerGet hdrs locationKey = yeelightScheme ++ addr)
    (hcolon : addr.contains ':' = true) :
    (Discover net).result = Except.ok addr ∧
    (∀ m, ReadResponse (padCRLF m) = none → parseAddr m = []) ∧
    (∀ m hs, ReadResponse (padCRLF m) = some hs → headerGet hs locationKey = [] →
      parseAddr m = []) := by
  refine ⟨?_, ?_, ?_⟩
  · obtain ⟨⟨⟨⟨h1, h2⟩, h3⟩, h4⟩, h5⟩ :
        (((net.resolveOk = true ∧ net.listenOk = true) ∧ net.writeOk = true) ∧
          net.deadlineOk = true) ∧ net.closeOk = true := by
      simpa [discoverPhasesOk, Bool.and_eq_true] using hph
    have haddr : parseAddr msg = addr := by
      simp [parseAddr, hresp, hloc, TrimPrefix_append]
    simp only [Discover, h1, h2, h3, h4, h5, hreply, haddr, New, hcolon]
    simp [hcolon, List.mem_of_elem_eq_true hcolon]
  · intro m hm
    simp [parseAddr, hm]
  · intro m hs hm hget
    simp [parseAddr, hm, hget, TrimPrefix]
/-- Witness for C7 at the spec's concrete discovery reply. -/
theorem discover_parses_location_witness :
    (Discover sampleDiscoverNet).result = Except.ok "192.168.1.50:55443".data :=
  (discover_parses_location sampleDiscoverNet sampleReply "192.168.1.50:55443".data
    sampleHeaders rfl rfl rfl rfl rfl).1

/-- C8: when every discovery phase up to the read succeeds and no UDP
reply arrives before the read deadline, `Discover` fails with the
distinguished no-device-found error. -/
theorem discover_silence_no_device_found (net : DiscoverNet)
    (h1 : net.resolveOk = true) (h2 : net.listenOk = true)
    (h3 : net.writeOk = true) (h4 : net.deadlineOk = true)
    (h5 : net.reply = none) :
    (Discover net).result = Except.error DiscoverError.noDeviceFound := by
  simp [Discover, h1, h2, h3, h4, h5]

/-- Witness for C8 at a concrete silent run. -/
theorem discover_silence_no_device_found_witness :
    (Discover silentDiscoverNet).result = Except.error DiscoverError.noDeviceFound :=
  discover_silence_no_device_found silentDiscoverNet rfl rfl rfl rfl rfl

/-- C9: on the no-reply exit path, `Discover` returns the no-device-found
error with the UDP socket opened but never closed — the source has no
`defer pc.Close()` and calls `Close` only on the success path, so the
claim that every socket is closed on every exit path fails here. -/
theorem discover_leaks_socket_on_timeout :
    (Discover silentDiscoverNet).socketOpened = true ∧
    (Discover silentDiscoverNet).socketClosed = false ∧
    (Discover silentDiscoverNet).result = Except.error DiscoverError.noDeviceFound :=
  ⟨rfl, rfl, rfl⟩

/-- C10: when `send` succeeds, `IsPowerOn` reads `resp.Result[0]`
unconditionally: with a non-empty result it returns whether the first
element equals the string on, and with an empty result the unchecked
index access is out of bounds and the call panics — the operation is not
total. -/
theorem IsPowerOn_result_access (cmdId : Int) (net : SendNet) (rs : Response)
    (hp : sendPhasesOk net = true) (hr : net.read = ReadOutcome.reply rs)
    (he : rs.Error = none) :
    (rs.Result = [] → IsPowerOn cmdId net = GoCall.panicked) ∧
    (∀ v vs, rs.Result = v :: vs →
      IsPowerOn cmdId net = GoCall.ok (decide (v = JValue.str "on".data))) := by
  have hsend : (send cmdId GetProp [JValue.str "power".data] net).result = Except.ok rs :=
    send_result_ok cmdId GetProp [JValue.str "power".data] net rs hp hr he
  constructor
  · intro hres
    simp [IsPowerOn, hsend, hres]
  · intro v vs hres
    simp [IsPowerOn, hsend, hres]

/-- Witness for C10 at a concrete successful Response with an empty
result array: the model of the unchecked index access panics. -/
theorem IsPowerOn_result_access_witness :
    IsPowerOn 5 emptyResultNet = GoCall.panicked :=
  (IsPowerOn_result_access 5 emptyResultNet
    { ID := 5, Result := [], Error := none } rfl rfl rfl).1 rfl

end Yeelight
